import Mathlib

/-!
Verification of the fcgi-spawner gateway (package `main`, file
`cmd/spawner/main.go`, mirrored in `src/unnamed/part_005` lines 1-590).

The development shallowly embeds the spawner's data model and the four
operations that mutate its registry of child processes — the per-request
`getOrCreateChild`, the request dispatcher `spawnerHandler`, one cycle of the
idle reaper `cleanupChildProcesses`, and one event of the binary watcher
`watchFcgiBinaries` — together with the FastCGI bridge `proxyRequest`.
OS interactions (stat results, liveness probes, dial outcomes, clock reads,
fresh pids) are passed in as explicit oracle values; the signals, waits and
resource releases the code performs are recorded as an `Action` trace so that
shutdown sequencing can be stated precisely.
-/

namespace Spawner

/-! ### Go `path/filepath` helpers

`spawnerHandler` resolves request paths with `filepath.Base` and
`filepath.Join` (which cleans lexically).  These are faithful embeddings of
the Go functions for slash-separated paths. -/

/-- Go `strings.HasPrefix`, computed on the character lists so that concrete
instances evaluate by kernel reduction. -/
def hasPrefixStr (s pre : String) : Bool :=
  pre.data.isPrefixOf s.data

/-- Go `strings.HasSuffix`, computed on the character lists. -/
def hasSuffixStr (s suf : String) : Bool :=
  suf.data.reverse.isPrefixOf s.data.reverse

/-- Split a character list at `'/'` into path segments (the behaviour of
Go-style splitting on a single separator: `"" ↦ [""]`, `"/a" ↦ ["", "a"]`). -/
def splitSlashAux : List Char → List Char → List String
  | [], acc => [String.mk acc.reverse]
  | c :: rest, acc =>
    if c = '/' then String.mk acc.reverse :: splitSlashAux rest []
    else splitSlashAux rest (c :: acc)

/-- Split a path into its slash-separated segments. -/
def splitSlash (p : String) : List String :=
  splitSlashAux p.data []

/-- Go `filepath.Base`: last element of the path after dropping trailing
slashes; `"."` for the empty path, `"/"` for an all-slash path. -/
def goBase (p : String) : String :=
  if p = "" then "." else
  let cs := p.data.reverse.dropWhile (· = '/')
  if cs = [] then "/" else
  String.mk (cs.takeWhile (· ≠ '/')).reverse

/-- Element-stack core of Go `filepath.Clean`: drop empty and `"."` segments,
let `".."` cancel a preceding real segment, keep leading `".."`s of a relative
path, and drop `".."` at the root.  The stack is kept reversed. -/
def cleanElems (rooted : Bool) : List String → List String → List String
  | [], stack => stack
  | e :: rest, stack =>
    if e = "" ∨ e = "." then cleanElems rooted rest stack
    else if e = ".." then
      match stack with
      | [] => if rooted then cleanElems rooted rest [] else cleanElems rooted rest [".."]
      | top :: stack' =>
        if top = ".." then cleanElems rooted rest (".." :: top :: stack')
        else cleanElems rooted rest stack'
    else cleanElems rooted rest (e :: stack)

/-- Go `filepath.Clean` for slash-separated paths. -/
def goClean (p : String) : String :=
  if p = "" then "." else
  let rooted := hasPrefixStr p "/"
  let body := String.intercalate "/" (cleanElems rooted (splitSlash p) []).reverse
  if rooted then (if body = "" then "/" else "/" ++ body)
  else (if body = "" then "." else body)

/-- Go `filepath.Join` on two elements: empty elements are skipped and the
result is cleaned. -/
def goJoin (a b : String) : String :=
  if a = "" ∧ b = "" then ""
  else if a = "" then goClean b
  else if b = "" then goClean a
  else goClean (a ++ "/" ++ b)

/-! ### Data model -/

/-- Structure `Config` (main.go): the spawner's immutable runtime settings.  Durations
and timestamps are modelled as naturals (Go `time.Duration`/`time.Time`);
`defaultIdleTimeout = 0` disables idle eviction. -/
structure Config where
  webRoot : String
  staticRoot : String
  socketDir : String
  listenAddr : String
  defaultIdleTimeout : Nat
  deriving DecidableEq

/-- Structure `childProcess` (main.go): one registry entry.  `pid` stands for the
process handle behind `cmdInterface`; `binaryPath` doubles as `cmd.Path`
(the command is built from the absolute `appPath`); `hasListener` is
`listener != nil`, i.e. the worker runs in inherited-listener (stdio) mode. -/
structure childProcess where
  pid : Nat
  socketPath : String
  lastUsed : Nat
  binaryPath : String
  idleTimeout : Nat
  binaryModTime : Nat
  hasListener : Bool
  deriving DecidableEq

/-- The `childProcesses` map, embedded as an association list keyed by the
absolute executable path. -/
def Registry := List (String × childProcess)
  deriving DecidableEq

instance : Membership (String × childProcess) Registry :=
  inferInstanceAs (Membership _ (List _))

/-- The identities currently registered. -/
def keys (reg : Registry) : List String :=
  (reg : List (String × childProcess)).map Prod.fst

/-- Map lookup (`s.childProcesses[appPath]`). -/
def lookupReg : Registry → String → Option childProcess
  | [], _ => none
  | (k, v) :: rest, key => if k = key then some v else lookupReg rest key

/-- Map insert-or-replace (`s.childProcesses[appPath] = child`). -/
def setEntry : Registry → String → childProcess → Registry
  | [], k, v => [(k, v)]
  | (k', v') :: rest, k, v =>
    if k' = k then (k, v) :: rest else (k', v') :: setEntry rest k v

/-- Map deletion (`delete(s.childProcesses, appPath)`). -/
def eraseKey (reg : Registry) (k : String) : Registry :=
  (reg : List (String × childProcess)).filter (fun e => e.1 ≠ k)

/-- Observable side effects on processes and transports, recorded in order. -/
inductive Action where
  | sigterm (pid : Nat)
  | graceSleep
  | sigkill (pid : Nat)
  | waitReap (pid : Nat)
  | closeListener (pid : Nat)
  | removeSocketFile (path : String)
  | removeEntry (appPath : String)
  | spawn (appPath : String) (pid : Nat)
  deriving DecidableEq

/-- Whether an action is a process spawn. -/
def isSpawn : Action → Bool
  | .spawn _ _ => true
  | _ => false

/-- Number of processes spawned in a trace. -/
def countSpawns (l : List Action) : Nat :=
  l.countP isSpawn

/-! ### `getOrCreateChild` (main.go, part_005 lines 344-538) -/

/-- OS oracle for one `getOrCreateChild` call: the `os.Stat(appPath)`
modification time (`none` when the binary is missing), whether the existing
entry's `ProcessState` reports the process exited, whether the old process is
still alive after the one-second grace period (`Signal(0) == nil`), whether
`cmd.Start()` succeeds, the outcome of each readiness dial attempt, the new
child's pid, and the current clock (`time.Now()`). -/
structure SpawnEnv where
  statModTime : Option Nat
  exitedFlag : Bool
  aliveAfterGrace : Bool
  startOk : Bool
  dial : Nat → Bool
  newPid : Nat
  now : Nat

/-- The readiness loop makes 100 dial attempts. -/
def dialAttempts : Nat := 100

/-- Each dial attempt uses a 50 ms connect timeout. -/
def dialTimeoutMs : Nat := 50

/-- The loop sleeps 20 ms after a failed attempt. -/
def dialSleepMs : Nat := 20

/-- First readiness-dial attempt that succeeds, if any, among the 100 tries
of the connect-retry loop. -/
def firstDialSuccess (dial : Nat → Bool) : Option Nat :=
  (List.range dialAttempts).find? dial

/-- The transport address handed to the child: in socket-path mode a `.sock`
name under the socket directory; in inherited-listener (stdio) mode an
abstract-namespace address (leading NUL byte). -/
def childSocketPath (cfg : Config) (appPath : String) : String :=
  if cfg.socketDir ≠ "" then goJoin cfg.socketDir (goBase appPath ++ ".sock")
  else "\x00" ++ goJoin "/tmp/fcgi-spawner-sockets" (goBase appPath ++ ".sock")

/-- Releasing a worker's transport: close the inherited listener when one
exists, otherwise remove the named socket file. -/
def releaseTransport (c : childProcess) : Action :=
  if c.hasListener then .closeListener c.pid else .removeSocketFile c.socketPath

/-- Two-phase retirement of a stale or exited entry inside `getOrCreateChild`:
SIGTERM, a one-second grace sleep, SIGKILL when the liveness re-check still
finds the process alive, then a blocking `Wait` (reap), transport release and
map removal. -/
def retireChild (appPath : String) (c : childProcess) (aliveAfterGrace : Bool) :
    List Action :=
  [.sigterm c.pid, .graceSleep]
    ++ (if aliveAfterGrace then [.sigkill c.pid] else [])
    ++ [.waitReap c.pid, releaseTransport c, .removeEntry appPath]

/-- Result of a `getOrCreateChild` call: the Go return value, the registry
it leaves behind, and the recorded side effects. -/
structure SpawnResult where
  result : Except String childProcess
  registry : Registry
  actions : List Action

/-- The spawn tail of `getOrCreateChild` (lines 418-537): start the process,
run the bounded connect-retry loop, kill the fresh process and fail on
timeout, otherwise register the new entry with the spawn-time modification
time and the configured default idle timeout. -/
def spawnChild (cfg : Config) (reg : Registry) (appPath : String) (modTime : Nat)
    (env : SpawnEnv) : SpawnResult :=
  if env.startOk = false then
    { result := .error "failed to start application", registry := reg, actions := [] }
  else
    match firstDialSuccess env.dial with
    | none =>
      { result := .error "failed to connect to child socket"
        registry := reg
        actions := [.spawn appPath env.newPid, .sigkill env.newPid] }
    | some _ =>
      let c : childProcess :=
        { pid := env.newPid
          socketPath := childSocketPath cfg appPath
          lastUsed := env.now
          binaryPath := appPath
          idleTimeout := cfg.defaultIdleTimeout
          binaryModTime := modTime
          hasListener := cfg.socketDir = "" }
      { result := .ok c
        registry := setEntry reg appPath c
        actions := [.spawn appPath env.newPid] }

/-- Method `Spawner.getOrCreateChild` under the registry mutex: stat the binary;
reuse a registered entry when its process has not exited and the on-disk
modification time has not advanced past the recorded one (updating only
`lastUsed`); otherwise retire the entry with `retireChild` and spawn a
replacement. -/
def getOrCreateChild (cfg : Config) (reg : Registry) (appPath : String)
    (env : SpawnEnv) : SpawnResult :=
  match env.statModTime with
  | none => { result := .error "application not found", registry := reg, actions := [] }
  | some currentModTime =>
    match lookupReg reg appPath with
    | some child =>
      if env.exitedFlag = false ∧ currentModTime ≤ child.binaryModTime then
        let c' := { child with lastUsed := env.now }
        { result := .ok c', registry := setEntry reg appPath c', actions := [] }
      else
        let acts := retireChild appPath child env.aliveAfterGrace
        let r := spawnChild cfg (eraseKey reg appPath) appPath currentModTime env
        { result := r.result, registry := r.registry, actions := acts ++ r.actions }
    | none => spawnChild cfg reg appPath currentModTime env

/-! ### One reaper cycle (`Spawner.cleanupChildProcesses`, lines 142-186) -/

/-- The signal-0 probe found the process dead (first branch of the loop
body). -/
def reapDead (alive : Nat → Bool) (c : childProcess) : Bool :=
  alive c.pid = false

/-- The idle check of the second branch: the configured default idle timeout
is nonzero and the time since last use exceeds it. -/
def idleExpired (cfg : Config) (now : Nat) (c : childProcess) : Bool :=
  decide (0 < cfg.defaultIdleTimeout) && decide (cfg.defaultIdleTimeout < now - c.lastUsed)

/-- Whether one reaper cycle removes the entry. -/
def reaperRemoves (cfg : Config) (now : Nat) (alive : Nat → Bool)
    (c : childProcess) : Bool :=
  reapDead alive c || idleExpired cfg now c

/-- Side effects of one reaper cycle on a single entry: a dead process is
reaped (wait, release, remove) with no regard to idle time; an idle-expired
live process is killed immediately — no SIGTERM and no grace sleep — then
reaped, released and removed. -/
def reaperActions (cfg : Config) (now : Nat) (alive : Nat → Bool)
    (appPath : String) (c : childProcess) : List Action :=
  if reapDead alive c then
    [.waitReap c.pid, releaseTransport c, .removeEntry appPath]
  else if idleExpired cfg now c then
    [.sigkill c.pid, .waitReap c.pid, releaseTransport c, .removeEntry appPath]
  else []

/-- One full cycle of `cleanupChildProcesses`, run under the registry mutex:
visit every entry, drop those the cycle removes, and record the side effects
in visiting order. -/
def cleanupCycle (cfg : Config) (now : Nat) (alive : Nat → Bool)
    (reg : Registry) : Registry × List Action :=
  ((reg : List (String × childProcess)).filter
      (fun e => !reaperRemoves cfg now alive e.2),
   (reg : List (String × childProcess)).flatMap
      (fun e => reaperActions cfg now alive e.1 e.2))

/-! ### One watcher event (`Spawner.watchFcgiBinaries`, lines 233-260) -/

/-- Handling of one fsnotify event: on a write to a `.fcgi` path whose
identity is registered, kill the process outright, remove the socket-path
file, and delete the entry.  (The code removes `child.socketPath` in both
transport modes and never closes `child.listener` here.) -/
def watchEvent (reg : Registry) (eventPath : String) (isWriteOp : Bool) :
    Registry × List Action :=
  if isWriteOp && hasSuffixStr eventPath ".fcgi" then
    match lookupReg reg eventPath with
    | some child =>
      (eraseKey reg eventPath,
       [.sigkill child.pid, .removeSocketFile child.socketPath,
        .removeEntry eventPath])
    | none => (reg, [])
  else (reg, [])

/-! ### Dispatcher (`Spawner.spawnerHandler`, lines 303-342) -/

/-- The `os.Stat` result fields the dispatcher inspects: `Mode().IsRegular()` and
`Mode().Perm()&0111 != 0`. -/
structure FileMeta where
  isRegular : Bool
  isExecutable : Bool
  deriving DecidableEq

/-- Where the dispatcher sends a request. -/
inductive RouteOutcome where
  | emptyPath
  | forbidden
  | dispatch (target : String)
  | fallthru (target : String)
  deriving DecidableEq

/-- Routing decision plus the list of paths the dispatcher passed to
`os.Stat` before deciding. -/
structure RouteResult where
  outcome : RouteOutcome
  statted : List String
  deriving DecidableEq

/-- The path-resolution and classification prefix of `spawnerHandler`:
take the base name of the request path, join it under the web root, reject
with Forbidden when the joined path no longer has the root as a prefix, and
otherwise stat it — dispatching only a regular executable `.fcgi` file and
falling through to the static collaborator / 404 in every other case. -/
def routeRequest (webRoot scriptPath : String)
    (stat : String → Option FileMeta) : RouteResult :=
  if scriptPath = "" then { outcome := .emptyPath, statted := [] }
  else
    let targetPath := goJoin webRoot (goBase scriptPath)
    if hasPrefixStr targetPath webRoot = false then
      { outcome := .forbidden, statted := [] }
    else
      match stat targetPath with
      | some info =>
        if info.isRegular && info.isExecutable && hasSuffixStr targetPath ".fcgi" then
          { outcome := .dispatch targetPath, statted := [targetPath] }
        else { outcome := .fallthru targetPath, statted := [targetPath] }
      | none => { outcome := .fallthru targetPath, statted := [targetPath] }

/-! ### Protocol bridge (`Spawner.proxyRequest`, lines 540-590) -/

/-- The inbound HTTP request fields the bridge reads.  `contentLength` is
Go's `r.ContentLength` (an `int64`). -/
structure HttpRequest where
  method : String
  proto : String
  rawQuery : String
  path : String
  requestURI : String
  host : String
  remoteAddr : String
  headers : List (String × String)
  body : String
  contentLength : Int

/-- Go `r.Header.Get`: first value for the key, or the empty string. -/
def headerGet (hs : List (String × String)) (k : String) : String :=
  ((hs.find? (fun p => p.1 = k)).map Prod.snd).getD ""

/-- CGI meta-variable name for an HTTP header: uppercase and map `-` to `_`
(Go: `strings.ToUpper(strings.Replace(name, "-", "_", -1))`). -/
def cgiHeaderName (n : String) : String :=
  String.mk (n.data.map (fun c => if c = '-' then '_' else c.toUpper))

/-- The FastCGI environment map built by `proxyRequest`, as the ordered list
of assignments into the Go map (a later assignment to a key overwrites an
earlier one). -/
def buildEnv (cfg : Config) (req : HttpRequest) (child : childProcess) :
    List (String × String) :=
  [("REQUEST_METHOD", req.method),
   ("SERVER_PROTOCOL", req.proto),
   ("QUERY_STRING", req.rawQuery),
   ("CONTENT_TYPE", headerGet req.headers "Content-Type"),
   ("CONTENT_LENGTH", toString req.contentLength),
   ("SCRIPT_FILENAME", child.binaryPath),
   ("SCRIPT_NAME", req.path),
   ("REQUEST_URI", req.requestURI),
   ("DOCUMENT_URI", req.path),
   ("DOCUMENT_ROOT", cfg.webRoot),
   ("SERVER_SOFTWARE", "go-fcgi-spawner"),
   ("REMOTE_ADDR", req.remoteAddr),
   ("HTTP_HOST", req.host)]
  ++ req.headers.map (fun p => ("HTTP_" ++ cgiHeaderName p.1, p.2))

/-- Lookup in the assignment list with map semantics: the last binding of a
key wins. -/
def envGet (e : List (String × String)) (k : String) : Option String :=
  (e.reverse.find? (fun p => p.1 = k)).map Prod.snd

/-- A worker's FastCGI response. -/
structure FcgiResponse where
  status : Nat
  headers : List (String × String)
  body : String
  deriving DecidableEq

/-- What the gateway hands back for one request: its own HTTP response, or
delegation to the static-file collaborator. -/
inductive GatewayResponse where
  | http (status : Nat) (headers : List (String × String)) (body : String)
  | staticDelegated
  deriving DecidableEq

/-- Oracle for one dispatch: whether `fcgiclient.Dial` succeeds, and the
worker's response to a submitted environment and body (`none` when the
exchange fails). -/
structure ProxyEnv where
  dialOk : Bool
  exchange : List (String × String) → String → Option FcgiResponse

/-- Result of `proxyRequest`: the HTTP response, the registry (the entry's
`lastUsed` was refreshed under the mutex before dialing), and recorded side
effects. -/
structure ProxyResult where
  response : GatewayResponse
  registry : Registry
  actions : List Action

/-- Method `Spawner.proxyRequest`: refresh `lastUsed` under the mutex, dial the
worker's transport for this request only, submit the environment and body,
and relay status, headers and body verbatim; a dial or exchange failure
yields 502 Bad Gateway with no signal, no removal and no respawn. -/
def proxyRequest (cfg : Config) (reg : Registry) (appPath : String)
    (child : childProcess) (req : HttpRequest) (penv : ProxyEnv) (now : Nat) :
    ProxyResult :=
  let reg' := setEntry reg appPath { child with lastUsed := now }
  if penv.dialOk = false then
    { response := .http 502 [] "Bad Gateway", registry := reg', actions := [] }
  else
    match penv.exchange (buildEnv cfg req child) req.body with
    | none => { response := .http 502 [] "Bad Gateway", registry := reg', actions := [] }
    | some resp =>
      { response := .http resp.status resp.headers resp.body
        registry := reg'
        actions := [] }

/-- Method `Spawner.spawnerHandler` end to end: route, then either answer directly
(empty path 500, traversal 403, spawn failure 500), dispatch through
`getOrCreateChild` and `proxyRequest`, or fall through to the static
collaborator when one is configured and to 404 otherwise. -/
def spawnerHandler (cfg : Config) (reg : Registry) (req : HttpRequest)
    (stat : String → Option FileMeta) (senv : SpawnEnv) (penv : ProxyEnv)
    (now : Nat) : GatewayResponse × Registry × List Action :=
  match (routeRequest cfg.webRoot req.path stat).outcome with
  | .emptyPath => (.http 500 [] "Internal Server Error: script path is empty", reg, [])
  | .forbidden => (.http 403 [] "Forbidden", reg, [])
  | .dispatch target =>
    let r := getOrCreateChild cfg reg target senv
    match r.result with
    | .error _ => (.http 500 [] "Internal Server Error", r.registry, r.actions)
    | .ok child =>
      let p := proxyRequest cfg r.registry target child req penv now
      (p.response, p.registry, r.actions ++ p.actions)
  | .fallthru _ =>
    if cfg.staticRoot ≠ "" then (.staticDelegated, reg, [])
    else (.http 404 [] "404 Not Found", reg, [])

/-! ### Serialized interleavings

Every registry mutation in the source runs while holding
`childProcessesMu`, so an interleaving of requests, reaper cycles and
watcher events is a sequence of atomic registry operations. -/

/-- One atomic registry operation. -/
inductive Op where
  | request (appPath : String) (env : SpawnEnv)
  | reaperCycle (now : Nat) (alive : Nat → Bool)
  | watchWrite (path : String) (isWriteOp : Bool)

/-- Effect of one serialized operation on the registry. -/
def stepOp (cfg : Config) (reg : Registry) : Op → Registry
  | .request appPath env => (getOrCreateChild cfg reg appPath env).registry
  | .reaperCycle now alive => (cleanupCycle cfg now alive reg).1
  | .watchWrite path w => (watchEvent reg path w).1

/-- Effect of a serialized sequence of operations. -/
def runOps (cfg : Config) (reg : Registry) : List Op → Registry
  | [] => reg
  | op :: rest => runOps cfg (stepOp cfg reg op) rest

/-! ### Per-worker idle-timeout rewriting (for the claim that the field is
write-only) -/

/-- Overwrite the `idleTimeout` field of one entry. -/
def setIdle (t : Nat) (c : childProcess) : childProcess :=
  { c with idleTimeout := t }

/-- Rewrite every entry's `idleTimeout` field by an arbitrary assignment. -/
def mapIdle (f : String → childProcess → Nat) (reg : Registry) : Registry :=
  (reg : List (String × childProcess)).map (fun e => (e.1, setIdle (f e.1 e.2) e.2))

/-! ### Concrete fixtures used by witnesses and counterexamples -/

/-- A socket-path-mode configuration with the default five-minute idle
timeout (300 s). -/
def cfgEx : Config :=
  { webRoot := "/web", staticRoot := "", socketDir := "/tmp/fcgi-sockets",
    listenAddr := ":8080", defaultIdleTimeout := 300 }

/-- A registered socket-path-mode worker for `/web/calc.fcgi`. -/
def childEx : childProcess :=
  { pid := 41, socketPath := "/tmp/fcgi-sockets/calc.fcgi.sock", lastUsed := 100,
    binaryPath := "/web/calc.fcgi", idleTimeout := 300, binaryModTime := 50,
    hasListener := false }

/-- A registry holding only the `/web/calc.fcgi` worker. -/
def regEx : Registry := [("/web/calc.fcgi", childEx)]

/-- A registered inherited-listener-mode worker for `/web/app.fcgi`
(`listener != nil`, abstract socket address). -/
def stdioChild : childProcess :=
  { pid := 9, socketPath := "\x00/tmp/fcgi-spawner-sockets/app.fcgi.sock",
    lastUsed := 0, binaryPath := "/web/app.fcgi", idleTimeout := 300,
    binaryModTime := 1, hasListener := true }

/-- A registry holding only the inherited-listener-mode worker. -/
def regStdio : Registry := [("/web/app.fcgi", stdioChild)]

/-- The `POST /calc.fcgi` scenario request: body `"2+2"` (three bytes),
`Content-Type: text/plain`, host `test.local`. -/
def calcRequest : HttpRequest :=
  { method := "POST", proto := "HTTP/1.1", rawQuery := "", path := "/calc.fcgi",
    requestURI := "/calc.fcgi", host := "test.local",
    remoteAddr := "192.0.2.1:5555", headers := [("Content-Type", "text/plain")],
    body := "2+2", contentLength := 3 }

/-- A traversal request for `../../etc/passwd`. -/
def passwdRequest : HttpRequest :=
  { method := "GET", proto := "HTTP/1.1", rawQuery := "",
    path := "../../etc/passwd", requestURI := "../../etc/passwd",
    host := "test.local", remoteAddr := "192.0.2.1:5555", headers := [],
    body := "", contentLength := 0 }

/-- A stat oracle for an empty filesystem. -/
def statAbsent : String → Option FileMeta := fun _ => none

/-- A spawn oracle under which an existing healthy entry is reused: binary
modification time still 50, process not exited. -/
def senvReuse : SpawnEnv :=
  { statModTime := some 50, exitedFlag := false, aliveAfterGrace := false,
    startOk := true, dial := fun _ => true, newPid := 42, now := 200 }

/-- A spawn oracle for a touched binary (modification time advanced to 60)
whose old process survives the grace period and whose replacement spawns and
answers the first dial. -/
def senvStale : SpawnEnv :=
  { statModTime := some 60, exitedFlag := false, aliveAfterGrace := true,
    startOk := true, dial := fun _ => true, newPid := 43, now := 300 }

/-- A spawn oracle whose readiness dial never succeeds. -/
def senvNoDial : SpawnEnv :=
  { statModTime := some 50, exitedFlag := false, aliveAfterGrace := false,
    startOk := true, dial := fun _ => false, newPid := 44, now := 400 }

/-- A dispatch oracle whose connection attempt fails. -/
def penvFailDial : ProxyEnv := { dialOk := false, exchange := fun _ _ => none }

/-- A worker double for the calc scenario: it answers `200 "4"` exactly when
the submitted environment carries the four scenario meta-variables and the
submitted body is `"2+2"`. -/
def calcExchange : List (String × String) → String → Option FcgiResponse :=
  fun env body =>
    if envGet env "REQUEST_METHOD" = some "POST"
        ∧ envGet env "CONTENT_LENGTH" = some "3"
        ∧ envGet env "HTTP_HOST" = some "test.local"
        ∧ envGet env "SCRIPT_NAME" = some "/calc.fcgi"
        ∧ body = "2+2" then
      some { status := 200, headers := [("Content-Type", "text/plain")], body := "4" }
    else none

/-- Dispatch oracle wrapping `calcExchange` with a successful dial. -/
def penvCalc : ProxyEnv := { dialOk := true, exchange := calcExchange }

/-- A stat oracle exposing `/web/calc.fcgi` as a regular executable file. -/
def statCalc : String → Option FileMeta := fun p =>
  if p = "/web/calc.fcgi" then some { isRegular := true, isExecutable := true }
  else none

/-- The worker `spawnChild` registers under `senvReuse` for
`/web/calc.fcgi` in socket-path mode. -/
def spawnedCalcChild : childProcess :=
  { pid := 42, socketPath := "/tmp/fcgi-sockets/calc.fcgi.sock", lastUsed := 200,
    binaryPath := "/web/calc.fcgi", idleTimeout := 300, binaryModTime := 50,
    hasListener := false }

/-! ### Registry lemmas -/

theorem mem_keys_setEntry {reg : Registry} {k a : String} {v : childProcess}
    (h : a ∈ keys (setEntry reg k v)) : a ∈ keys reg ∨ a = k := by
  induction reg with
  | nil =>
    simp only [setEntry, keys, List.map_cons, List.map_nil] at h
    simp only [List.mem_singleton] at h
    exact Or.inr h
  | cons hd tl ih =>
    obtain ⟨k', v'⟩ := hd
    simp only [setEntry] at h
    by_cases hk : k' = k
    · simp only [if_pos hk, keys, List.map_cons, List.mem_cons] at h
      rcases h with h | h
      · exact Or.inr h
      · exact Or.inl (by simp [keys, h])
    · simp only [if_neg hk, keys, List.map_cons, List.mem_cons] at h
      rcases h with h | h
      · exact Or.inl (by simp [keys, h])
      · rcases ih h with h' | h'
        · exact Or.inl (by simp [keys] at h' ⊢; exact Or.inr h')
        · exact Or.inr h'

theorem nodup_keys_setEntry {reg : Registry} {k : String} {v : childProcess}
    (h : (keys reg).Nodup) : (keys (setEntry reg k v)).Nodup := by
  induction reg with
  | nil => simp [setEntry, keys]
  | cons hd tl ih =>
    obtain ⟨k', v'⟩ := hd
    simp only [keys, List.map_cons, List.nodup_cons] at h
    simp only [setEntry]
    split
    next hk =>
      simp only [keys, List.map_cons, List.nodup_cons]
      exact ⟨hk ▸ h.1, h.2⟩
    next hk =>
      simp only [keys, List.map_cons, List.nodup_cons]
      exact ⟨fun hmem => (mem_keys_setEntry hmem).elim h.1 hk, ih h.2⟩

theorem keys_filter_sublist (reg : Registry) (p : String × childProcess → Bool) :
    List.Sublist (keys ((reg : List (String × childProcess)).filter p)) (keys reg) :=
  ((reg : List (String × childProcess)).filter_sublist).map Prod.fst

theorem nodup_keys_filter {reg : Registry} (p : String × childProcess → Bool)
    (h : (keys reg).Nodup) :
    (keys ((reg : List (String × childProcess)).filter p)).Nodup :=
  (keys_filter_sublist reg p).nodup h

theorem nodup_keys_eraseKey {reg : Registry} {k : String}
    (h : (keys reg).Nodup) : (keys (eraseKey reg k)).Nodup :=
  nodup_keys_filter _ h

theorem lookup_setEntry_self (reg : Registry) (k : String) (v : childProcess) :
    lookupReg (setEntry reg k v) k = some v := by
  induction reg with
  | nil => simp [setEntry, lookupReg]
  | cons hd tl ih =>
    obtain ⟨k', v'⟩ := hd
    simp only [setEntry]
    split
    next hk => simp [lookupReg]
    next hk => simp only [lookupReg, if_neg hk]; exact ih

theorem mem_of_lookup {reg : Registry} {k : String} {v : childProcess}
    (h : lookupReg reg k = some v) : (k, v) ∈ (reg : List (String × childProcess)) := by
  induction reg with
  | nil => simp [lookupReg] at h
  | cons hd tl ih =>
    obtain ⟨k', v'⟩ := hd
    simp only [lookupReg] at h
    split at h
    next hk =>
      simp only [Option.some_inj] at h
      exact hk ▸ h ▸ List.mem_cons_self _ _
    next hk => exact List.mem_cons_of_mem _ (ih h)

theorem lookup_eq_none_of_not_mem_keys {reg : Registry} {k : String}
    (h : k ∉ keys reg) : lookupReg reg k = none := by
  induction reg with
  | nil => simp [lookupReg]
  | cons hd tl ih =>
    obtain ⟨k', v'⟩ := hd
    simp only [keys, List.map_cons, List.mem_cons] at h
    push_neg at h
    have hne : ¬ (k' = k) := fun hk => h.1 (Eq.symm hk)
    simp only [lookupReg, if_neg hne]
    exact ih h.2

theorem lookup_filter_none {reg : Registry} {k : String}
    (p : String × childProcess → Bool) (h : lookupReg reg k = none) :
    lookupReg ((reg : List (String × childProcess)).filter p) k = none := by
  induction reg with
  | nil => simp [lookupReg, List.filter_nil]
  | cons hd tl ih =>
    obtain ⟨k', v'⟩ := hd
    simp only [lookupReg] at h
    split at h
    next => simp at h
    next hk =>
      simp only [List.filter_cons]
      split
      next => simp only [lookupReg, if_neg hk]; exact ih h
      next => exact ih h

theorem lookup_filter_some {reg : Registry} {k : String} {v : childProcess}
    (p : String × childProcess → Bool) (hnd : (keys reg).Nodup)
    (h : lookupReg reg k = some v) :
    lookupReg ((reg : List (String × childProcess)).filter p) k
      = if p (k, v) then some v else none := by
  induction reg with
  | nil => simp [lookupReg] at h
  | cons hd tl ih =>
    obtain ⟨k', v'⟩ := hd
    simp only [keys, List.map_cons, List.nodup_cons] at hnd
    simp only [lookupReg] at h
    split at h
    next hk =>
      simp only [Option.some_inj] at h
      subst h
      subst hk
      cases hp : p (k', v') with
      | true => simp [List.filter_cons, hp, lookupReg]
      | false =>
        simp only [List.filter_cons, hp]
        simp only [Bool.false_eq_true, if_false]
        exact lookup_filter_none p (lookup_eq_none_of_not_mem_keys hnd.1)
    next hk =>
      cases hp : p (k', v') with
      | true =>
        simp only [List.filter_cons, hp, if_true, lookupReg, if_neg hk]
        exact ih hnd.2 h
      | false =>
        simp only [List.filter_cons, hp, Bool.false_eq_true, if_false]
        exact ih hnd.2 h

/-! ### Spawn-count and uniqueness lemmas -/

theorem countSpawns_retireChild (appPath : String) (c : childProcess)
    (b : Bool) : countSpawns (retireChild appPath c b) = 0 := by
  cases b <;> cases hl : c.hasListener <;>
    simp [retireChild, releaseTransport, countSpawns, isSpawn, hl]

theorem countSpawns_spawnChild (cfg : Config) (reg : Registry)
    (appPath : String) (m : Nat) (env : SpawnEnv) :
    countSpawns (spawnChild cfg reg appPath m env).actions ≤ 1 := by
  unfold spawnChild
  split
  · simp [countSpawns]
  · split <;> simp [countSpawns, isSpawn]

theorem nodup_keys_spawnChild {cfg : Config} {reg : Registry}
    {appPath : String} {m : Nat} {env : SpawnEnv}
    (h : (keys reg).Nodup) :
    (keys (spawnChild cfg reg appPath m env).registry).Nodup := by
  unfold spawnChild
  split
  · exact h
  · split
    · exact h
    · exact nodup_keys_setEntry h

theorem nodup_keys_getOrCreateChild {cfg : Config} {reg : Registry}
    {appPath : String} {env : SpawnEnv} (h : (keys reg).Nodup) :
    (keys (getOrCreateChild cfg reg appPath env).registry).Nodup := by
  unfold getOrCreateChild
  split
  · exact h
  · split
    · split
      · exact nodup_keys_setEntry h
      · exact nodup_keys_spawnChild (nodup_keys_eraseKey h)
    · exact nodup_keys_spawnChild h

theorem nodup_keys_watchEvent {reg : Registry} {path : String} {w : Bool}
    (h : (keys reg).Nodup) : (keys (watchEvent reg path w).1).Nodup := by
  unfold watchEvent
  split
  · split
    · exact nodup_keys_eraseKey h
    · exact h
  · exact h

theorem nodup_keys_stepOp {cfg : Config} {reg : Registry} (op : Op)
    (h : (keys reg).Nodup) : (keys (stepOp cfg reg op)).Nodup := by
  cases op with
  | request appPath env => exact nodup_keys_getOrCreateChild h
  | reaperCycle now alive => exact nodup_keys_filter _ h
  | watchWrite path w => exact nodup_keys_watchEvent h

theorem nodup_keys_runOps {cfg : Config} {reg : Registry} (ops : List Op)
    (h : (keys reg).Nodup) : (keys (runOps cfg reg ops)).Nodup := by
  induction ops generalizing reg with
  | nil => exact h
  | cons op rest ih => exact ih (nodup_keys_stepOp op h)

theorem countSpawns_getOrCreateChild_le_one (cfg : Config) (reg : Registry)
    (appPath : String) (env : SpawnEnv) :
    countSpawns (getOrCreateChild cfg reg appPath env).actions ≤ 1 := by
  unfold getOrCreateChild
  split
  next => simp [countSpawns]
  next currentModTime heq =>
    split
    next child hc =>
      split
      · simp [countSpawns]
      · simp only [countSpawns, List.countP_append]
        have h1 := countSpawns_retireChild appPath child env.aliveAfterGrace
        simp only [countSpawns] at h1
        rw [h1]
        have h2 := countSpawns_spawnChild cfg (eraseKey reg appPath) appPath
          currentModTime env
        simp only [countSpawns] at h2
        omega
    next hc => exact countSpawns_spawnChild cfg reg appPath currentModTime env

/-- The claim C1: every serialized interleaving of requests, reaper cycles
and watcher events preserves key-uniqueness of the `childProcesses` map, a
single `getOrCreateChild` call spawns at most one process, and it spawns no
process at all while a usable entry for the identity exists. -/
theorem registry_at_most_one_entry_per_identity :
    (∀ (cfg : Config) (reg : Registry) (ops : List Op),
        (keys reg).Nodup → (keys (runOps cfg reg ops)).Nodup)
    ∧ (∀ (cfg : Config) (reg : Registry) (appPath : String) (env : SpawnEnv),
        countSpawns (getOrCreateChild cfg reg appPath env).actions ≤ 1)
    ∧ (∀ (cfg : Config) (reg : Registry) (appPath : String) (env : SpawnEnv)
          (child : childProcess) (m : Nat),
        lookupReg reg appPath = some child →
        env.statModTime = some m →
        env.exitedFlag = false →
        m ≤ child.binaryModTime →
        countSpawns (getOrCreateChild cfg reg appPath env).actions = 0) := by
  refine ⟨fun cfg reg ops h => nodup_keys_runOps ops h,
    fun cfg reg appPath env => countSpawns_getOrCreateChild_le_one cfg reg appPath env,
    fun cfg reg appPath env child m hc hm he hle => ?_⟩
  simp only [getOrCreateChild, hm, hc]
  rw [if_pos ⟨he, hle⟩]
  simp [countSpawns]

/-- Witness for C1 at a concrete registry, operation sequence and call. -/
theorem registry_at_most_one_entry_per_identity_witness :
    (keys (runOps cfgEx regEx
        [Op.request "/web/calc.fcgi" senvReuse,
         Op.reaperCycle 200 (fun _ => true),
         Op.watchWrite "/web/calc.fcgi" true])).Nodup
    ∧ countSpawns (getOrCreateChild cfgEx regEx "/web/calc.fcgi" senvReuse).actions ≤ 1
    ∧ countSpawns (getOrCreateChild cfgEx regEx "/web/calc.fcgi" senvReuse).actions = 0 :=
  ⟨registry_at_most_one_entry_per_identity.1 cfgEx regEx _ (by decide),
   registry_at_most_one_entry_per_identity.2.1 cfgEx regEx "/web/calc.fcgi" senvReuse,
   registry_at_most_one_entry_per_identity.2.2 cfgEx regEx "/web/calc.fcgi" senvReuse
     childEx 50 (by decide) rfl rfl (by decide)⟩

/-- The claim C3: with the binary present, a registered worker is reused —
no side effect, the same entry handed back and re-stored with only a fresh
`lastUsed` — exactly when its process has not exited and the current on-disk
modification time does not exceed the recorded spawn-time one. -/
theorem reuse_iff_alive_and_unmodified
    (cfg : Config) (reg : Registry) (appPath : String) (env : SpawnEnv)
    (child : childProcess) (m : Nat)
    (hc : lookupReg reg appPath = some child)
    (hm : env.statModTime = some m) :
    ((getOrCreateChild cfg reg appPath env).actions = []
      ∧ (getOrCreateChild cfg reg appPath env).result
          = Except.ok { child with lastUsed := env.now }
      ∧ (getOrCreateChild cfg reg appPath env).registry
          = setEntry reg appPath { child with lastUsed := env.now })
    ↔ (env.exitedFlag = false ∧ m ≤ child.binaryModTime) := by
  simp only [getOrCreateChild, hm, hc]
  split
  next h => exact iff_of_true ⟨rfl, rfl, rfl⟩ h
  next h =>
    refine iff_of_false (fun hcontra => ?_) h
    have ha := hcontra.1
    simp [retireChild] at ha

/-- Witness for C3: an unmodified binary (modification time 50 on both
sides) and a live process give reuse with only `lastUsed` advanced. -/
theorem reuse_iff_alive_and_unmodified_witness :
    (getOrCreateChild cfgEx regEx "/web/calc.fcgi" senvReuse).actions = []
    ∧ (getOrCreateChild cfgEx regEx "/web/calc.fcgi" senvReuse).result
        = Except.ok { childEx with lastUsed := 200 }
    ∧ (getOrCreateChild cfgEx regEx "/web/calc.fcgi" senvReuse).registry
        = setEntry regEx "/web/calc.fcgi" { childEx with lastUsed := 200 } :=
  (reuse_iff_alive_and_unmodified cfgEx regEx "/web/calc.fcgi" senvReuse childEx 50
      (by decide) rfl).mpr ⟨rfl, by decide⟩

/-- The claim C4: once the binary's modification time has advanced past the
recorded one, the next `getOrCreateChild` call for the identity retires the
old worker — SIGTERM, the one-second grace sleep, SIGKILL exactly when the
liveness re-check still finds it alive, a blocking reap, transport release
and entry removal, in that order — and then registers a replacement whose
recorded modification time is the new one. -/
theorem stale_binary_two_phase_replacement
    (cfg : Config) (reg : Registry) (appPath : String) (env : SpawnEnv)
    (child : childProcess) (m : Nat)
    (hc : lookupReg reg appPath = some child)
    (hm : env.statModTime = some m)
    (hstale : child.binaryModTime < m)
    (hstart : env.startOk = true)
    (hdial : firstDialSuccess env.dial ≠ none) :
    ∃ c' : childProcess,
      (getOrCreateChild cfg reg appPath env).result = Except.ok c'
      ∧ c'.binaryModTime = m
      ∧ c'.pid = env.newPid
      ∧ lookupReg (getOrCreateChild cfg reg appPath env).registry appPath = some c'
      ∧ (getOrCreateChild cfg reg appPath env).actions
          = [Action.sigterm child.pid, Action.graceSleep]
            ++ (if env.aliveAfterGrace then [Action.sigkill child.pid] else [])
            ++ [Action.waitReap child.pid, releaseTransport child,
                Action.removeEntry appPath, Action.spawn appPath env.newPid] := by
  have hcond : ¬ (env.exitedFlag = false ∧ m ≤ child.binaryModTime) := by
    rintro ⟨_, hle⟩
    omega
  obtain ⟨i, hi⟩ := Option.ne_none_iff_exists'.mp hdial
  simp only [getOrCreateChild, hm, hc]
  rw [if_neg hcond]
  simp only [spawnChild, hstart, hi]
  refine ⟨_, rfl, rfl, rfl, ?_, ?_⟩
  · exact lookup_setEntry_self _ _ _
  · simp [retireChild]

/-- Witness for C4: the `/web/calc.fcgi` worker spawned at modification time
50 is replaced after the binary is rewritten at time 60; the old process
survives the grace period, so SIGKILL is sent before the reap. -/
theorem stale_binary_two_phase_replacement_witness :
    lookupReg regEx "/web/calc.fcgi" = some childEx
    ∧ childEx.binaryModTime < 60
    ∧ ∃ c' : childProcess,
        (getOrCreateChild cfgEx regEx "/web/calc.fcgi" senvStale).result = Except.ok c'
        ∧ c'.binaryModTime = 60
        ∧ c'.pid = 43
        ∧ lookupReg (getOrCreateChild cfgEx regEx "/web/calc.fcgi" senvStale).registry
            "/web/calc.fcgi" = some c'
        ∧ (getOrCreateChild cfgEx regEx "/web/calc.fcgi" senvStale).actions
            = [Action.sigterm 41, Action.graceSleep]
              ++ (if senvStale.aliveAfterGrace then [Action.sigkill 41] else [])
              ++ [Action.waitReap 41, releaseTransport childEx,
                  Action.removeEntry "/web/calc.fcgi", Action.spawn "/web/calc.fcgi" 43] :=
  ⟨by decide, by decide,
   stale_binary_two_phase_replacement cfgEx regEx "/web/calc.fcgi" senvStale childEx 60
     (by decide) rfl (by decide) rfl (by decide)⟩

/-- The claim C5: on one reaper cycle, a registered worker whose process is
still alive is removed exactly when the configured default idle timeout is
nonzero and the time since its last use exceeds it; a zero timeout never
evicts an idle worker; and an idle-expired worker is killed outright — no
SIGTERM, no grace sleep — then reaped, its transport released and its entry
removed, those effects appearing in the cycle's trace. -/
theorem reaper_idle_eviction_policy
    (cfg : Config) (now : Nat) (alive : Nat → Bool) (reg : Registry)
    (appPath : String) (child : childProcess)
    (hnd : (keys reg).Nodup)
    (hc : lookupReg reg appPath = some child)
    (halive : alive child.pid = true) :
    (lookupReg (cleanupCycle cfg now alive reg).1 appPath = none
      ↔ 0 < cfg.defaultIdleTimeout ∧ cfg.defaultIdleTimeout < now - child.lastUsed)
    ∧ (cfg.defaultIdleTimeout = 0 →
        lookupReg (cleanupCycle cfg now alive reg).1 appPath = some child)
    ∧ (0 < cfg.defaultIdleTimeout → cfg.defaultIdleTimeout < now - child.lastUsed →
        reaperActions cfg now alive appPath child
          = [Action.sigkill child.pid, Action.waitReap child.pid,
             releaseTransport child, Action.removeEntry appPath]
        ∧ ∀ a ∈ reaperActions cfg now alive appPath child,
            a ∈ (cleanupCycle cfg now alive reg).2) := by
  have hdead : reapDead alive child = false := by
    simp [reapDead, halive]
  have hlook := lookup_filter_some
    (fun e => !reaperRemoves cfg now alive e.2) hnd hc
  refine ⟨?_, ?_, ?_⟩
  · rw [cleanupCycle, hlook]
    by_cases hidle : idleExpired cfg now child = true
    · rw [if_neg (by simp [reaperRemoves, hdead, hidle])]
      simp only [idleExpired, Bool.and_eq_true, decide_eq_true_eq] at hidle
      exact iff_of_true rfl hidle
    · rw [if_pos (by simp [reaperRemoves, hdead]; simpa using hidle)]
      refine iff_of_false (by simp) (fun hprop => ?_)
      exact hidle (by simp [idleExpired, hprop.1, hprop.2])
  · intro hzero
    rw [cleanupCycle, hlook]
    rw [if_pos (by simp [reaperRemoves, hdead, idleExpired, hzero])]
  · intro h1 h2
    have hidle : idleExpired cfg now child = true := by
      simp [idleExpired, h1, h2]
    have hacts : reaperActions cfg now alive appPath child
        = [Action.sigkill child.pid, Action.waitReap child.pid,
           releaseTransport child, Action.removeEntry appPath] := by
      rw [reaperActions, if_neg (by simp [hdead]), if_pos hidle]
    refine ⟨hacts, fun a ha => ?_⟩
    rw [cleanupCycle]
    exact List.mem_flatMap.mpr ⟨(appPath, child), mem_of_lookup hc, ha⟩

/-- Witness for C5: with a 300-second timeout, the worker last used at 100
is evicted at time 500 (idle 400 > 300) by an immediate kill. -/
theorem reaper_idle_eviction_policy_witness :
    (lookupReg (cleanupCycle cfgEx 500 (fun _ => true) regEx).1 "/web/calc.fcgi" = none
      ↔ 0 < 300 ∧ 300 < 500 - childEx.lastUsed)
    ∧ (reaperActions cfgEx 500 (fun _ => true) "/web/calc.fcgi" childEx
        = [Action.sigkill 41, Action.waitReap 41, releaseTransport childEx,
           Action.removeEntry "/web/calc.fcgi"]) := by
  have h := reaper_idle_eviction_policy cfgEx 500 (fun _ => true) regEx
    "/web/calc.fcgi" childEx (by decide) (by decide) rfl
  exact ⟨h.1, (h.2.2 (by decide) (by decide)).1⟩

/-- The claim C6: when every one of the 100 readiness dial attempts fails
(the retry loop's sleeps alone totalling 100 × 20 ms = 2 s), the launcher
kills the process it just started, `getOrCreateChild` returns a spawn error
without registering anything, and the dispatcher answers the client with
HTTP 500. -/
theorem readiness_timeout_kills_and_returns_500
    (cfg : Config) (reg : Registry) (req : HttpRequest)
    (stat : String → Option FileMeta) (senv : SpawnEnv) (penv : ProxyEnv)
    (now : Nat) (target : String) (m : Nat)
    (hroute : (routeRequest cfg.webRoot req.path stat).outcome
        = RouteOutcome.dispatch target)
    (hnone : lookupReg reg target = none)
    (hm : senv.statModTime = some m)
    (hstart : senv.startOk = true)
    (hfail : ∀ i, i < dialAttempts → senv.dial i = false) :
    (∃ msg, (getOrCreateChild cfg reg target senv).result = Except.error msg)
    ∧ (getOrCreateChild cfg reg target senv).registry = reg
    ∧ (getOrCreateChild cfg reg target senv).actions
        = [Action.spawn target senv.newPid, Action.sigkill senv.newPid]
    ∧ spawnerHandler cfg reg req stat senv penv now
        = (GatewayResponse.http 500 [] "Internal Server Error", reg,
           [Action.spawn target senv.newPid, Action.sigkill senv.newPid])
    ∧ dialAttempts * dialSleepMs = 2000 := by
  have hdial : firstDialSuccess senv.dial = none := by
    rw [firstDialSuccess]
    rw [List.find?_eq_none]
    intro i hi
    simp [hfail i (List.mem_range.mp hi)]
  have hg : getOrCreateChild cfg reg target senv
      = { result := Except.error "failed to connect to child socket",
          registry := reg,
          actions := [Action.spawn target senv.newPid, Action.sigkill senv.newPid] } := by
    simp only [getOrCreateChild, hm, hnone, spawnChild, hstart, hdial]
    simp
  refine ⟨⟨_, by rw [hg]⟩, by rw [hg], by rw [hg], ?_, rfl⟩
  simp only [spawnerHandler, hroute, hg]

/-- Witness for C6: a first request for `/web/calc.fcgi` whose worker never
answers the dial loop. -/
theorem readiness_timeout_kills_and_returns_500_witness :
    (∃ msg, (getOrCreateChild cfgEx [] "/web/calc.fcgi" senvNoDial).result
        = Except.error msg)
    ∧ (getOrCreateChild cfgEx [] "/web/calc.fcgi" senvNoDial).registry = []
    ∧ (getOrCreateChild cfgEx [] "/web/calc.fcgi" senvNoDial).actions
        = [Action.spawn "/web/calc.fcgi" 44, Action.sigkill 44]
    ∧ spawnerHandler cfgEx [] calcRequest statCalc senvNoDial penvCalc 0
        = (GatewayResponse.http 500 [] "Internal Server Error", [],
           [Action.spawn "/web/calc.fcgi" 44, Action.sigkill 44])
    ∧ dialAttempts * dialSleepMs = 2000 :=
  readiness_timeout_kills_and_returns_500 cfgEx [] calcRequest statCalc senvNoDial
    penvCalc 0 "/web/calc.fcgi" 50 (by decide) rfl rfl rfl
    (fun i hi => rfl)

/-- The claim C7: when the dial to a registered worker's transport fails, or
the FastCGI exchange with it fails, `proxyRequest` answers 502 Bad Gateway
and leaves the worker registered — the entry is still present with every
field except the pre-dial `lastUsed` refresh unchanged, no signal is sent,
and nothing is spawned (the empty action trace). -/
theorem proxy_failure_leaves_worker_registered
    (cfg : Config) (reg : Registry) (appPath : String) (child : childProcess)
    (req : HttpRequest) (penv : ProxyEnv) (now : Nat)
    (hc : lookupReg reg appPath = some child)
    (hfail : penv.dialOk = false
        ∨ penv.exchange (buildEnv cfg req child) req.body = none) :
    (proxyRequest cfg reg appPath child req penv now).response
        = GatewayResponse.http 502 [] "Bad Gateway"
    ∧ lookupReg (proxyRequest cfg reg appPath child req penv now).registry appPath
        = some { child with lastUsed := now }
    ∧ (proxyRequest cfg reg appPath child req penv now).actions = [] := by
  have hl := lookup_setEntry_self reg appPath { child with lastUsed := now }
  rcases hfail with hd | he
  · simp only [proxyRequest, hd]
    exact ⟨by simp, by simpa using hl, by simp⟩
  · by_cases hd : penv.dialOk = false
    · simp only [proxyRequest, hd]
      exact ⟨by simp, by simpa using hl, by simp⟩
    · refine ⟨?_, ?_, ?_⟩ <;> simp [proxyRequest, he, hd, hl]

/-- Witness for C7: dialing the calc worker fails, the client gets 502 and
the entry survives with only `lastUsed` refreshed. -/
theorem proxy_failure_leaves_worker_registered_witness :
    (proxyRequest cfgEx regEx "/web/calc.fcgi" childEx calcRequest penvFailDial 250).response
        = GatewayResponse.http 502 [] "Bad Gateway"
    ∧ lookupReg (proxyRequest cfgEx regEx "/web/calc.fcgi" childEx calcRequest
          penvFailDial 250).registry "/web/calc.fcgi"
        = some { childEx with lastUsed := 250 }
    ∧ (proxyRequest cfgEx regEx "/web/calc.fcgi" childEx calcRequest penvFailDial 250).actions
        = [] :=
  proxy_failure_leaves_worker_registered cfgEx regEx "/web/calc.fcgi" childEx
    calcRequest penvFailDial 250 (by decide) (Or.inl rfl)

/-- The claim C8: for `POST /calc.fcgi` with body `"2+2"` (three bytes),
`Content-Type: text/plain` and host `test.local`, the environment the bridge
submits carries `REQUEST_METHOD=POST`, `CONTENT_LENGTH=3`, `HTTP_HOST=
test.local` and `SCRIPT_NAME=/calc.fcgi` — witnessed both by direct lookup
in `buildEnv` and by a worker double that answers only when it receives
exactly those variables and that body — and the worker's `200 "4"` response
is relayed to the client unchanged. -/
theorem calc_scenario_env_and_verbatim_relay :
    envGet (buildEnv cfgEx calcRequest childEx) "REQUEST_METHOD" = some "POST"
    ∧ envGet (buildEnv cfgEx calcRequest childEx) "CONTENT_LENGTH" = some "3"
    ∧ envGet (buildEnv cfgEx calcRequest childEx) "HTTP_HOST" = some "test.local"
    ∧ envGet (buildEnv cfgEx calcRequest childEx) "SCRIPT_NAME" = some "/calc.fcgi"
    ∧ calcRequest.body = "2+2"
    ∧ (calcRequest.body.length : Int) = calcRequest.contentLength
    ∧ (proxyRequest cfgEx regEx "/web/calc.fcgi" childEx calcRequest penvCalc 260).response
        = GatewayResponse.http 200 [("Content-Type", "text/plain")] "4"
    ∧ ∀ resp : FcgiResponse,
        (proxyRequest cfgEx regEx "/web/calc.fcgi" childEx calcRequest
            { dialOk := true, exchange := fun _ _ => some resp } 260).response
          = GatewayResponse.http resp.status resp.headers resp.body := by
  exact ⟨by decide, by decide, by decide, by decide, by decide, by decide, by decide,
    fun resp => rfl⟩

/-- Witness for C8's universally quantified relay conjunct, applied to a
worker response with status 503, one header and body `"x"`. -/
theorem calc_scenario_env_and_verbatim_relay_witness :
    (proxyRequest cfgEx regEx "/web/calc.fcgi" childEx calcRequest
        { dialOk := true,
          exchange := fun _ _ =>
            some { status := 503, headers := [("X-K", "v")], body := "x" } } 260).response
      = GatewayResponse.http 503 [("X-K", "v")] "x" :=
  calc_scenario_env_and_verbatim_relay.2.2.2.2.2.2.2
    { status := 503, headers := [("X-K", "v")], body := "x" }

/-- Counterexample to the claim C2: for request path `../../etc/passwd` the
dispatcher does NOT respond 403 — the basename is joined under the root,
giving the in-root target `/web/passwd` — and it DOES stat that resolved
target before answering (here 404, the static collaborator being absent). -/
theorem traversal_403_claim_counterexample :
    (routeRequest "/web" "../../etc/passwd" statAbsent).outcome
        ≠ RouteOutcome.forbidden
    ∧ (routeRequest "/web" "../../etc/passwd" statAbsent).statted = ["/web/passwd"]
    ∧ (spawnerHandler cfgEx [] passwdRequest statAbsent senvReuse penvFailDial 0).1
        = GatewayResponse.http 404 [] "404 Not Found" := by
  decide

/-- The amended claim C2: `filepath.Base` neutralizes traversal — the
request `../../etc/passwd` resolves to the in-root target `/web/passwd`,
which is statted (under any filesystem) and can never dispatch to a worker
(it lacks the `.fcgi` suffix), so no exec is attempted; the Forbidden branch
fires only when joining the basename escapes the root, and whenever it fires
no stat has been performed. -/
theorem traversal_neutralized_by_basename (stat : String → Option FileMeta) :
    routeRequest "/web" "../../etc/passwd" stat
      = { outcome := RouteOutcome.fallthru "/web/passwd", statted := ["/web/passwd"] }
    ∧ ∀ (root p : String) (st : String → Option FileMeta),
        (routeRequest root p st).outcome = RouteOutcome.forbidden →
        (routeRequest root p st).statted = [] := by
  constructor
  · have hb : goJoin "/web" (goBase "../../etc/passwd") = "/web/passwd" := by decide
    have hpre : hasPrefixStr "/web/passwd" "/web" = true := by decide
    have hsuf : hasSuffixStr "/web/passwd" ".fcgi" = false := by decide
    simp only [routeRequest, hb, hpre]
    rw [if_neg (by decide)]
    rw [if_neg (by simp)]
    cases hst : stat "/web/passwd" with
    | none => rfl
    | some info => simp [hsuf]
  · intro root p st h
    simp only [routeRequest] at h ⊢
    split at h
    next => simp at h
    next hemp =>
      split at h
      next hpre => simp [hemp, hpre]
      next hpre =>
        split at h
        next info heq =>
          split at h
          next => simp at h
          next => simp at h
        next heq => simp at h

/-- Witness for the amended C2: the empty filesystem instance, plus the one
shape of path that does reach the Forbidden branch (`basename ".."`, joined
to `/`, which escapes the root) statting nothing. -/
theorem traversal_neutralized_by_basename_witness :
    routeRequest "/web" "../../etc/passwd" statAbsent
      = { outcome := RouteOutcome.fallthru "/web/passwd", statted := ["/web/passwd"] }
    ∧ (routeRequest "/web" "/.." statAbsent).outcome = RouteOutcome.forbidden
    ∧ (routeRequest "/web" "/.." statAbsent).statted = [] :=
  ⟨(traversal_neutralized_by_basename statAbsent).1, by decide,
   (traversal_neutralized_by_basename statAbsent).2 "/web" "/.." statAbsent (by decide)⟩

/-- Evidence for the claim C9, evaluated at the failing input: on a write
event for `/web/app.fcgi` whose registered worker runs in inherited-listener
mode, the watcher force-kills the process with no SIGTERM and no grace
sleep, removes the entry, spawns nothing — but its only transport-directed
action is removing the socket-path string; it never emits the
`closeListener` action that releasing this worker's transport
(`releaseTransport stdioChild`) requires, so the listener leaks.  (In
socket-path mode, where the transport IS the socket file, the same removal
does release it.) -/
theorem watcher_kills_but_leaks_stdio_listener :
    (watchEvent regStdio "/web/app.fcgi" true).1 = []
    ∧ (watchEvent regStdio "/web/app.fcgi" true).2
        = [Action.sigkill 9,
           Action.removeSocketFile "\x00/tmp/fcgi-spawner-sockets/app.fcgi.sock",
           Action.removeEntry "/web/app.fcgi"]
    ∧ Action.sigterm 9 ∉ (watchEvent regStdio "/web/app.fcgi" true).2
    ∧ Action.graceSleep ∉ (watchEvent regStdio "/web/app.fcgi" true).2
    ∧ countSpawns (watchEvent regStdio "/web/app.fcgi" true).2 = 0
    ∧ releaseTransport stdioChild = Action.closeListener 9
    ∧ releaseTransport stdioChild ∉ (watchEvent regStdio "/web/app.fcgi" true).2
    ∧ (watchEvent (setEntry [] "/web/calc.fcgi" childEx) "/web/calc.fcgi" true).2
        = [Action.sigkill 41, releaseTransport childEx,
           Action.removeEntry "/web/calc.fcgi"] := by
  decide

/-- The claim C10: one reaper cycle is entirely insensitive to the stored
per-worker `idleTimeout` fields — rewriting them arbitrarily changes neither
which identities survive nor the cycle's side effects — and the launcher
always stamps a fresh worker's `idleTimeout` with the configured global
default, which is the only timeout the eviction test reads. -/
theorem idle_eviction_reads_only_global_timeout :
    (∀ (cfg : Config) (now : Nat) (alive : Nat → Bool)
        (f : String → childProcess → Nat) (reg : Registry),
      keys (cleanupCycle cfg now alive (mapIdle f reg)).1
          = keys (cleanupCycle cfg now alive reg).1
        ∧ (cleanupCycle cfg now alive (mapIdle f reg)).2
          = (cleanupCycle cfg now alive reg).2)
    ∧ (∀ (cfg : Config) (reg : Registry) (appPath : String) (m : Nat)
          (env : SpawnEnv) (c' : childProcess),
        (spawnChild cfg reg appPath m env).result = Except.ok c' →
        c'.idleTimeout = cfg.defaultIdleTimeout) := by
  constructor
  · intro cfg now alive f reg
    induction reg with
    | nil => exact ⟨rfl, rfl⟩
    | cons hd tl ih =>
      obtain ⟨k, c⟩ := hd
      have hrem : reaperRemoves cfg now alive (setIdle (f k c) c)
          = reaperRemoves cfg now alive c := rfl
      have hact : reaperActions cfg now alive k (setIdle (f k c) c)
          = reaperActions cfg now alive k c := rfl
      have ihf := (ih : keys (cleanupCycle cfg now alive (mapIdle f tl)).1
          = keys (cleanupCycle cfg now alive tl).1
        ∧ (cleanupCycle cfg now alive (mapIdle f tl)).2
          = (cleanupCycle cfg now alive tl).2)
      constructor
      · simp only [mapIdle, List.map_cons, cleanupCycle, List.filter_cons, hrem]
        have hkeys := ihf.1
        simp only [mapIdle, cleanupCycle, keys] at hkeys
        cases hb : reaperRemoves cfg now alive c with
        | true => simpa [keys] using hkeys
        | false => simp [keys, hkeys]
      · simp only [mapIdle, List.map_cons, cleanupCycle, List.flatMap_cons, hact]
        have := ihf.2
        simp only [mapIdle, cleanupCycle] at this
        rw [this]
  · intro cfg reg appPath m env c' h
    unfold spawnChild at h
    split at h
    next => simp at h
    next =>
      split at h
      next => simp at h
      next =>
        simp only [Except.ok.injEq] at h
        rw [← h]

/-- Witness for C10: rewriting the calc worker's stored `idleTimeout` to 7
changes nothing about the cycle at time 500, and the worker spawned by
`senvReuse` carries the global 300-second default. -/
theorem idle_eviction_reads_only_global_timeout_witness :
    (keys (cleanupCycle cfgEx 500 (fun _ => true)
          (mapIdle (fun _ _ => 7) regEx)).1
        = keys (cleanupCycle cfgEx 500 (fun _ => true) regEx).1
      ∧ (cleanupCycle cfgEx 500 (fun _ => true) (mapIdle (fun _ _ => 7) regEx)).2
        = (cleanupCycle cfgEx 500 (fun _ => true) regEx).2)
    ∧ ((spawnChild cfgEx [] "/web/calc.fcgi" 50 senvReuse).result
          = Except.ok spawnedCalcChild
        ∧ spawnedCalcChild.idleTimeout = cfgEx.defaultIdleTimeout) :=
  ⟨idle_eviction_reads_only_global_timeout.1 cfgEx 500 (fun _ => true)
      (fun _ _ => 7) regEx,
   rfl,
   idle_eviction_reads_only_global_timeout.2 cfgEx [] "/web/calc.fcgi" 50 senvReuse
     _ rfl⟩

end Spawner
